import Mathlib

/-!
Shallow embedding of `src/physicsEngine.py` (femurdev/physicsPen).

Scalars are modelled as exact rationals (`ℚ`); the Python code uses IEEE
floats, and the spec states its properties as exact arithmetic identities,
so the embedding works in the idealised exact arithmetic the spec assumes.

The source's `v_len` is `math.hypot`, an irrational square root with no
computable rational counterpart, so every definition that calls it
(`RodSpring.apply`, the `rest_length` default in `RodSpring.__post_init__`)
takes the length function as an explicit parameter `vlen : Vector2 → ℚ`.
The theorems below hold for every such function; the only property any
proof needs is `vlen (0, 0) = 0`, true of `math.hypot` (`hypot(0,0) = 0`).

Python objects are aliased mutable references: `_attached_to` stores a
reference to the live target object and `RodSpring` stores references to
its two bodies.  The embedding therefore uses an explicit world — a
`List PhysicsObject` — with attachments and spring endpoints holding
indices into it.  Every mutating method becomes a function `World → World`,
paired with an `Option PhysError` where the Python method can raise; the
world component of an error result is the state at the moment the
exception propagates, which models Python exceptions leaving
already-performed mutations in place.
-/

namespace PhysicsPen

/-- 2D vector, as in the source's `Vector2 = Tuple[float, float]`. -/
abbrev Vector2 := ℚ × ℚ

/-- Source `v_add`. -/
def v_add (a b : Vector2) : Vector2 := (a.1 + b.1, a.2 + b.2)

/-- Source `v_sub`. -/
def v_sub (a b : Vector2) : Vector2 := (a.1 - b.1, a.2 - b.2)

/-- Source `v_scale`. -/
def v_scale (a : Vector2) (s : ℚ) : Vector2 := (a.1 * s, a.2 * s)

/-- Source `v_zero`. -/
def v_zero : Vector2 := (0, 0)

/-- The variant (Python subclass) of a body, with its shape parameters:
`PhysicsObject` itself, `Anchor`, `Ball(radius)` or `Box(width, height)`.
Only `get_attach_point` dispatches on it. -/
inductive Shape where
  | base : Shape
  | anchor : Shape
  | ball (radius : ℚ) : Shape
  | box (width height : ℚ) : Shape
deriving DecidableEq, Inhabited

/-- `self.__class__.__name__`, used in the error message of
`get_attach_point`. -/
def Shape.className : Shape → String
  | .base => "PhysicsObject"
  | .anchor => "Anchor"
  | .ball _ => "Ball"
  | .box _ _ => "Box"

/-- The two error conditions the source raises (both as `ValueError`):
attaching to a `None` target (`"target must be a PhysicsObject"`), and
requesting an attach point a variant does not define (the message names
the variant's class name and the requested part, carried here as data). -/
inductive PhysError where
  | invalidTarget : PhysError
  | unknownAttachPoint (variant : String) (part : String) : PhysError
deriving DecidableEq, Inhabited

/-- A `PhysicsObject` (and its subclasses, carried in `shape`): the
dataclass fields `position`, `velocity`, `mass`, `fixed`, and the
attachment state `_attached_to` (here an index into the world),
`_attached_part`, `_attached_offset`, `_previous_fixed_state`.
The `color` display hint is out of the spec's scope and omitted. -/
structure PhysicsObject where
  position : Vector2 := v_zero
  velocity : Vector2 := v_zero
  mass : ℚ := 1
  fixed : Bool := false
  shape : Shape := .base
  attachedTo : Option Nat := none
  attachedPart : Option String := none
  attachedOffset : Option Vector2 := none
  previousFixedState : Option Bool := none
deriving DecidableEq, Inhabited

/-- The collection of live bodies; Python references become indices. -/
abbrev World := List PhysicsObject

/-- Dereference an index.  In Python a stored reference always points at a
live object; an out-of-range index corresponds to a dangling reference,
which the spec declares undefined, so any total extension is faithful. -/
def getObj (w : World) (i : Nat) : PhysicsObject := w.getD i default

/-- Write back the mutated object at its index. -/
def setObj (w : World) (i : Nat) (o : PhysicsObject) : World := w.set i o

/-- Source `PhysicsObject.apply_force` (pure on the single object): no-op
when `fixed` or attached, no-op when `mass <= 0`, otherwise
`velocity += (force / mass) * dt` componentwise. -/
def applyForce (o : PhysicsObject) (force : Vector2) (dt : ℚ) : PhysicsObject :=
  if o.fixed = true ∨ o.attachedTo.isSome then o
  else if o.mass ≤ 0 then o
  else
    { o with velocity :=
        (o.velocity.1 + force.1 / o.mass * dt, o.velocity.2 + force.2 / o.mass * dt) }

/-- Source `get_attach_point`, dispatching on the variant exactly as the
four Python overrides do; unknown names raise, naming the variant and the
requested part. -/
def getAttachPoint (o : PhysicsObject) (part : String) : Except PhysError Vector2 :=
  match o.shape with
  | .base =>
      if part = "center" then .ok o.position
      else .error (.unknownAttachPoint "PhysicsObject" part)
  | .anchor =>
      if part = "anchor" ∨ part = "center" then .ok o.position
      else .error (.unknownAttachPoint "Anchor" part)
  | .ball _ =>
      if part = "center" then .ok o.position
      else .error (.unknownAttachPoint "Ball" part)
  | .box width height =>
      let cx := o.position.1
      let cy := o.position.2
      let hw := width / 2
      let hh := height / 2
      if part = "center" then .ok (cx, cy)
      else if part = "top_left" then .ok (cx - hw, cy - hh)
      else if part = "top_right" then .ok (cx + hw, cy - hh)
      else if part = "bottom_left" then .ok (cx - hw, cy + hh)
      else if part = "bottom_right" then .ok (cx + hw, cy + hh)
      else .error (.unknownAttachPoint "Box" part)

/-- Source `PhysicsObject.integrate` on body `i` of the world.  Attached:
resolve the target's attach point (with the `self._attached_part or
"center"` fallback, which also catches the empty string), set `position`
to attach point plus offset (or the attach point itself when the offset is
missing, the source's defensive branch), copy the target's velocity.
Free and fixed: no-op.  Free otherwise: explicit Euler
`position += velocity * dt`.  The error component models the exception a
failing `get_attach_point` on the target would propagate. -/
def integrate (w : World) (i : Nat) (dt : ℚ) : World × Option PhysError :=
  let o := getObj w i
  match o.attachedTo with
  | some j =>
      let target := getObj w j
      let part :=
        match o.attachedPart with
        | none => "center"
        | some s => if s = "" then "center" else s
      match getAttachPoint target part with
      | .error e => (w, some e)
      | .ok attachPoint =>
          let newPos :=
            match o.attachedOffset with
            | none => attachPoint
            | some off => v_add attachPoint off
          (setObj w i { o with position := newPos, velocity := target.velocity }, none)
  | none =>
      if o.fixed = true then (w, none)
      else
        (setObj w i
          { o with position :=
              (o.position.1 + o.velocity.1 * dt, o.position.2 + o.velocity.2 * dt) },
          none)

/-- Source `PhysicsObject.attach_to` on body `i`; `target` is `Option`
because Python passes a possibly-`None` reference.  Both validations
(target present, attach point resolvable) happen before any field is
written; on success the body records `_previous_fixed_state = fixed`, the
world-space offset, the attachment triple, and sets `fixed = True`. -/
def attachTo (w : World) (i : Nat) (target : Option Nat) (targetPart : String) :
    World × Option PhysError :=
  match target with
  | none => (w, some .invalidTarget)
  | some j =>
      match getAttachPoint (getObj w j) targetPart with
      | .error e => (w, some e)
      | .ok attachPoint =>
          let o := getObj w i
          let offset := v_sub o.position attachPoint
          (setObj w i
            { o with
              previousFixedState := some o.fixed,
              attachedTo := some j,
              attachedPart := some targetPart,
              attachedOffset := some offset,
              fixed := true },
            none)

/-- Source `PhysicsObject.detach` on body `i`: no-op when not attached;
otherwise snapshot the target's velocity, clear the attachment triple, and
restore `fixed` from `_previous_fixed_state` (clearing it), defaulting to
`false` when none was recorded. -/
def detach (w : World) (i : Nat) : World :=
  let o := getObj w i
  match o.attachedTo with
  | none => w
  | some j =>
      let oldTarget := getObj w j
      let newFixed :=
        match o.previousFixedState with
        | some b => b
        | none => false
      setObj w i
        { o with
          velocity := oldTarget.velocity,
          attachedTo := none,
          attachedPart := none,
          attachedOffset := none,
          previousFixedState := none,
          fixed := newFixed }

/-- Source `is_attached` query. -/
def isAttached (o : PhysicsObject) : Bool := o.attachedTo.isSome

/-- Source `RodSpring` dataclass: endpoints are indices (Python
references), `rest_length` here is the resolved value (see
`mkRodSpring` for the `__post_init__` default). -/
structure RodSpring where
  a : Nat
  b : Nat
  restLength : ℚ
  stiffness : ℚ := 100
  damping : ℚ := 0
deriving DecidableEq, Inhabited

/-- Source `RodSpring` construction including `__post_init__`: when
`rest_length` is not given it defaults to the current distance
`v_len(v_sub(b.position, a.position))`, computed once. -/
def mkRodSpring (vlen : Vector2 → ℚ) (w : World) (a b : Nat)
    (restLength : Option ℚ) (stiffness damping : ℚ) : RodSpring :=
  { a := a, b := b,
    restLength :=
      match restLength with
      | some r => r
      | none => vlen (v_sub (getObj w b).position (getObj w a).position),
    stiffness := stiffness, damping := damping }

/-- Source `RodSpring.apply`: Hookean plus axial damping force between the
two endpoint bodies, a no-op when the distance is exactly zero, otherwise
equal-and-opposite `apply_force` on `a` then on `b` (in that order, with
`b` read after `a`'s write, as Python aliasing does). -/
def RodSpring.apply (vlen : Vector2 → ℚ) (s : RodSpring) (w : World) (dt : ℚ) : World :=
  let A := getObj w s.a
  let B := getObj w s.b
  let delta := v_sub B.position A.position
  let dist := vlen delta
  if dist = 0 then w
  else
    let dirVec : Vector2 := (delta.1 / dist, delta.2 / dist)
    let stretch := dist - s.restLength
    let forceMag := -s.stiffness * stretch
    let relVel := v_sub B.velocity A.velocity
    let dampingForce := -s.damping * (relVel.1 * dirVec.1 + relVel.2 * dirVec.2)
    let totalForce := forceMag + dampingForce
    let force := v_scale dirVec totalForce
    let w1 := setObj w s.a (applyForce A (v_scale force (-1)) dt)
    setObj w1 s.b (applyForce (getObj w1 s.b) force dt)

/-- The integration half of `step`: `for obj in objects: obj.integrate(dt)`
over the given indices, short-circuiting with the state at the raise
point if an `integrate` call raises. -/
def integrateEach (dt : ℚ) (w : World) : List Nat → World × Option PhysError
  | [] => (w, none)
  | i :: rest =>
      match integrate w i dt with
      | (w', none) => integrateEach dt w' rest
      | (w', some e) => (w', some e)

/-- Source `step`: apply every constraint in order, then integrate every
body in list order. -/
def step (vlen : Vector2 → ℚ) (w : World) (constraints : List RodSpring)
    (dt : ℚ) : World × Option PhysError :=
  let w1 := constraints.foldl (fun acc c => RodSpring.apply vlen c acc dt) w
  integrateEach dt w1 (List.range w1.length)

/-- `n` successive `step` calls, stopping at the first raise. -/
def stepN (vlen : Vector2 → ℚ) (w : World) (constraints : List RodSpring)
    (dt : ℚ) : Nat → World × Option PhysError
  | 0 => (w, none)
  | n + 1 =>
      match step vlen w constraints dt with
      | (w', none) => stepN vlen w' constraints dt n
      | (w', some e) => (w', some e)

/-- The spec's fixed-while-attached invariant, per body: whenever the
attachment is present, the `fixed` flag is `true`. -/
def fixedInv (o : PhysicsObject) : Prop := o.attachedTo.isSome → o.fixed = true

/-- The fixed-while-attached invariant over every body of the world. -/
def worldFixedInv (w : World) : Prop := ∀ o ∈ w, fixedInv o

instance (o : PhysicsObject) : Decidable (fixedInv o) := by
  unfold fixedInv; infer_instance

instance (w : World) : Decidable (worldFixedInv w) := by
  unfold worldFixedInv; infer_instance

/- ---------------------------------------------------------------- -/
/- Helper lemmas about the world representation.                    -/
/- ---------------------------------------------------------------- -/

theorem getD_set_self {α : Type} :
    ∀ (l : List α) (i : Nat) (a d : α), i < l.length → (l.set i a).getD i d = a
  | _ :: _, 0, _, _, _ => rfl
  | _ :: xs, i + 1, a, d, h => getD_set_self xs i a d (Nat.lt_of_succ_lt_succ h)

theorem getD_set_ne {α : Type} :
    ∀ (l : List α) (i j : Nat) (a d : α), i ≠ j → (l.set i a).getD j d = l.getD j d
  | [], _, _, _, _, _ => rfl
  | _ :: _, 0, 0, _, _, h => absurd rfl h
  | _ :: _, 0, _ + 1, _, _, _ => rfl
  | _ :: _, _ + 1, 0, _, _, _ => rfl
  | _ :: xs, i + 1, j + 1, a, d, h =>
      getD_set_ne xs i j a d (fun hij => h (congrArg Nat.succ hij))

theorem set_getD_self {α : Type} :
    ∀ (l : List α) (i : Nat) (d : α), l.set i (l.getD i d) = l
  | [], _, _ => rfl
  | _ :: _, 0, _ => rfl
  | x :: xs, i + 1, d => congrArg (List.cons x) (set_getD_self xs i d)

theorem getObj_setObj_self (w : World) (i : Nat) (o : PhysicsObject)
    (h : i < w.length) : getObj (setObj w i o) i = o :=
  getD_set_self w i o default h

theorem getObj_setObj_ne (w : World) (i j : Nat) (o : PhysicsObject)
    (h : i ≠ j) : getObj (setObj w i o) j = getObj w j :=
  getD_set_ne w i j o default h

theorem setObj_getObj_self (w : World) (i : Nat) :
    setObj w i (getObj w i) = w :=
  set_getD_self w i default

theorem length_setObj (w : World) (i : Nat) (o : PhysicsObject) :
    (setObj w i o).length = w.length :=
  List.length_set w i o

/- ---------------------------------------------------------------- -/
/- Helper lemmas about `applyForce`.                                -/
/- ---------------------------------------------------------------- -/

theorem applyForce_of_attached (o : PhysicsObject) (f : Vector2) (dt : ℚ)
    (h : o.attachedTo.isSome) : applyForce o f dt = o := by
  unfold applyForce
  rw [if_pos (Or.inr h)]

theorem applyForce_of_fixed (o : PhysicsObject) (f : Vector2) (dt : ℚ)
    (h : o.fixed = true) : applyForce o f dt = o := by
  unfold applyForce
  rw [if_pos (Or.inl h)]

theorem applyForce_zero_force (o : PhysicsObject) (f : Vector2) (dt : ℚ)
    (h1 : f.1 = 0) (h2 : f.2 = 0) : applyForce o f dt = o := by
  unfold applyForce
  split
  · rfl
  · split
    · rfl
    · rw [h1, h2]
      simp

/-- Claim C5: `applyForce(force, dt)` is a no-op leaving the body's entire
state unchanged whenever the body is attached, or `fixed` is true, or
`mass ≤ 0` (silently, without error); otherwise it changes only velocity,
adding exactly `(force / mass) * dt` to it componentwise. -/
theorem C5_applyForce_spec (o : PhysicsObject) (f : Vector2) (dt : ℚ) :
    ((o.attachedTo.isSome ∨ o.fixed = true ∨ o.mass ≤ 0) → applyForce o f dt = o) ∧
    (o.attachedTo = none → o.fixed = false → 0 < o.mass →
      applyForce o f dt =
        { o with velocity :=
            (o.velocity.1 + f.1 / o.mass * dt, o.velocity.2 + f.2 / o.mass * dt) }) := by
  constructor
  · intro h
    unfold applyForce
    split
    · rfl
    · split
      · rfl
      · rename_i hcond hmass
        rcases h with h | h | h
        · exact absurd (Or.inr h) hcond
        · exact absurd (Or.inl h) hcond
        · exact absurd h hmass
  · intro h1 h2 h3
    unfold applyForce
    have hA : ¬(o.fixed = true ∨ o.attachedTo.isSome = true) := by
      simp [h1, h2]
    rw [if_neg hA, if_neg (not_le.mpr h3)]

/-- Witness for C5 at a concrete body and force. -/
theorem C5_applyForce_spec_witness :
    applyForce { velocity := (1, 2), mass := 2 } (4, 6) (1/2) =
      { ({ velocity := (1, 2), mass := 2 } : PhysicsObject) with
        velocity := ((1 : ℚ) + 4 / 2 * (1/2), (2 : ℚ) + 6 / 2 * (1/2)) } :=
  (C5_applyForce_spec { velocity := (1, 2), mass := 2 } (4, 6) (1/2)).2
    rfl rfl (by norm_num)

/-- Claim C7: `getAttachPoint(name)` raises an unknown-attach-point error
naming the variant and the requested point whenever the name is not
recognized for that variant (in particular `Ball.getAttachPoint("anchor")`
raises), and `attachTo` propagates this failure rather than catching it or
silently defaulting. -/
theorem C7_unknown_attach_point (o : PhysicsObject) (part : String)
    (w : World) (i j : Nat) :
    (o.shape = .base → part ≠ "center" →
      getAttachPoint o part = .error (.unknownAttachPoint "PhysicsObject" part)) ∧
    (o.shape = .anchor → part ≠ "anchor" → part ≠ "center" →
      getAttachPoint o part = .error (.unknownAttachPoint "Anchor" part)) ∧
    (∀ r, o.shape = .ball r → part ≠ "center" →
      getAttachPoint o part = .error (.unknownAttachPoint "Ball" part)) ∧
    (∀ bw bh, o.shape = .box bw bh → part ≠ "center" → part ≠ "top_left" →
      part ≠ "top_right" → part ≠ "bottom_left" → part ≠ "bottom_right" →
      getAttachPoint o part = .error (.unknownAttachPoint "Box" part)) ∧
    (∀ e, getAttachPoint (getObj w j) part = .error e →
      attachTo w i (some j) part = (w, some e)) := by
  refine ⟨?_, ?_, ?_, ?_, ?_⟩
  · intro hs hp
    simp [getAttachPoint, hs, hp]
  · intro hs hp1 hp2
    simp [getAttachPoint, hs, hp1, hp2]
  · intro r hs hp
    simp [getAttachPoint, hs, hp]
  · intro bw bh hs h1 h2 h3 h4 h5
    simp [getAttachPoint, hs, h1, h2, h3, h4, h5]
  · intro e he
    simp [attachTo, he]

/-- Witness for C7: a concrete `Ball` rejects `"anchor"`, and a concrete
`attachTo` call propagates exactly that error, leaving the world as it was. -/
theorem C7_unknown_attach_point_witness :
    getAttachPoint { shape := .ball (1/10) } "anchor" =
      .error (.unknownAttachPoint "Ball" "anchor") ∧
    attachTo [{ shape := .ball (1/10) }] 0 (some 0) "anchor" =
      ([{ shape := .ball (1/10) }], some (.unknownAttachPoint "Ball" "anchor")) := by
  have h1 := (C7_unknown_attach_point { shape := .ball (1/10) } "anchor"
      [{ shape := .ball (1/10) }] 0 0).2.2.1 (1/10) rfl (by decide)
  have h2 := (C7_unknown_attach_point { shape := .ball (1/10) } "anchor"
      [{ shape := .ball (1/10) }] 0 0).2.2.2.2
      (.unknownAttachPoint "Ball" "anchor") h1
  exact ⟨h1, h2⟩

/-- Claim C10: whenever `attachTo(target, targetPart)` raises — because the
target is absent or because resolving the target's attach point fails —
the attaching body's entire state (indeed the whole world) is left
completely unchanged, both validations occurring before any mutation; and
those are exactly the two raising cases. -/
theorem C10_attach_failure_atomic (w : World) (i : Nat) (target : Option Nat)
    (part : String) :
    (∀ e, (attachTo w i target part).2 = some e → (attachTo w i target part).1 = w) ∧
    (target = none → (attachTo w i target part).2 = some .invalidTarget) ∧
    (∀ j e, target = some j → getAttachPoint (getObj w j) part = .error e →
      (attachTo w i target part).2 = some e) := by
  refine ⟨?_, ?_, ?_⟩
  · intro e he
    cases target with
    | none => rfl
    | some j =>
        cases hg : getAttachPoint (getObj w j) part with
        | error e' => simp [attachTo, hg]
        | ok ap =>
            exfalso
            simp [attachTo, hg] at he
  · intro h
    subst h
    rfl
  · intro j e hj hg
    subst hj
    simp [attachTo, hg]

/-- Witness for C10: attaching a concrete body to an absent target raises
and leaves the world unchanged. -/
theorem C10_attach_failure_atomic_witness :
    (attachTo [{ mass := 3 }] 0 none "center").1 = [{ mass := 3 }] :=
  (C10_attach_failure_atomic [{ mass := 3 }] 0 none "center").1 .invalidTarget rfl

/-- Claim C3: `detach()` on an unattached body is a no-op; on an attached
body it sets velocity to the target's velocity as a snapshot at the moment
of the call (subsequent target mutation does not change it), clears the
attachment, and restores `fixed` to the saved pre-attach value when one
was recorded (clearing the saved value), defaulting `fixed` to `false`
otherwise. -/
theorem C3_detach_spec (w : World) (i j : Nat) (t' : PhysicsObject) :
    ((getObj w i).attachedTo = none → detach w i = w) ∧
    (i < w.length → (getObj w i).attachedTo = some j →
      getObj (detach w i) i =
        { getObj w i with
          velocity := (getObj w j).velocity,
          attachedTo := none,
          attachedPart := none,
          attachedOffset := none,
          previousFixedState := none,
          fixed := ((getObj w i).previousFixedState).getD false }) ∧
    (i ≠ j → getObj (setObj (detach w i) j t') i = getObj (detach w i) i) := by
  refine ⟨?_, ?_, ?_⟩
  · intro h
    simp [detach, h]
  · intro hi hTo
    simp only [detach, hTo]
    rw [getObj_setObj_self w i _ hi]
    cases (getObj w i).previousFixedState <;> rfl
  · intro hij
    exact getObj_setObj_ne (detach w i) j i t' (Ne.symm hij)

/-- Witness for C3: detaching a concrete attached body snapshots the
target's velocity and restores the recorded pre-attach `fixed = false`. -/
theorem C3_detach_spec_witness :
    getObj
      (detach
        [{ velocity := (1/2, 0) },
         { position := (1, 0), fixed := true, attachedTo := some 0,
           attachedPart := some "center", attachedOffset := some (1, 0),
           previousFixedState := some false }] 1) 1 =
      { position := (1, 0), velocity := (1/2, 0) } := by
  have h := (C3_detach_spec
      [{ velocity := (1/2, 0) },
       { position := (1, 0), fixed := true, attachedTo := some 0,
         attachedPart := some "center", attachedOffset := some (1, 0),
         previousFixedState := some false }] 1 0 default).2.1
      (by decide) rfl
  exact h

/-- Claim C4: re-attach quirk — for a body that is already attached (hence
its `fixed` flag is the forced `true`), a second `attachTo` overwrites
`savedFixedState` with the current `fixed` value (`true`), so a subsequent
`detach` restores `fixed` to `true` rather than to the body's original
pre-attachment `fixed` value. -/
theorem C4_reattach_quirk (w : World) (i j : Nat) (p : String) (w₁ : World)
    (hi : i < w.length)
    (hatt : (getObj w i).attachedTo.isSome)
    (hfix : (getObj w i).fixed = true)
    (hsucc : attachTo w i (some j) p = (w₁, none)) :
    (getObj w₁ i).previousFixedState = some true ∧
    (getObj (detach w₁ i) i).fixed = true := by
  cases hg : getAttachPoint (getObj w j) p with
  | error e =>
      exfalso
      simp [attachTo, hg] at hsucc
  | ok ap =>
      have hw₁ : w₁ = setObj w i
          { getObj w i with
            previousFixedState := some (getObj w i).fixed,
            attachedTo := some j,
            attachedPart := some p,
            attachedOffset := some (v_sub (getObj w i).position ap),
            fixed := true } := by
        simp only [attachTo, hg, Prod.mk.injEq] at hsucc
        exact hsucc.1.symm
      have hi₁ : i < w₁.length := by
        rw [hw₁, length_setObj]; exact hi
      have hbody : getObj w₁ i =
          { getObj w i with
            previousFixedState := some (getObj w i).fixed,
            attachedTo := some j,
            attachedPart := some p,
            attachedOffset := some (v_sub (getObj w i).position ap),
            fixed := true } := by
        rw [hw₁]
        exact getObj_setObj_self w i _ hi
      constructor
      · rw [hbody, hfix]
      · unfold detach
        rw [hbody]
        rw [getObj_setObj_self w₁ i _ hi₁, hfix]

/-- Witness for C4 at a concrete already-attached body whose true
pre-attachment state was `fixed = false`: after a second attach and a
detach, `fixed` comes back `true`. -/
theorem C4_reattach_quirk_witness :
    (getObj (attachTo
      [{ velocity := (0, 0) },
       { position := (2, 0), fixed := true, attachedTo := some 0,
         attachedPart := some "center", attachedOffset := some (2, 0),
         previousFixedState := some false }] 1 (some 0) "center").1 1).previousFixedState
      = some true ∧
    (getObj (detach (attachTo
      [{ velocity := (0, 0) },
       { position := (2, 0), fixed := true, attachedTo := some 0,
         attachedPart := some "center", attachedOffset := some (2, 0),
         previousFixedState := some false }] 1 (some 0) "center").1 1) 1).fixed
      = true :=
  C4_reattach_quirk
    [{ velocity := (0, 0) },
     { position := (2, 0), fixed := true, attachedTo := some 0,
       attachedPart := some "center", attachedOffset := some (2, 0),
       previousFixedState := some false }] 1 0 "center" _
    (by decide) (by decide) rfl rfl

/- ---------------------------------------------------------------- -/
/- Helper lemmas about `integrate` on attached bodies.              -/
/- ---------------------------------------------------------------- -/

theorem v_sub_v_add_left (a b : Vector2) : v_sub (v_add a b) a = b := by
  simp [v_add, v_sub]

theorem integrate_attached_eq (w : World) (i j : Nat) (p : String)
    (off ap : Vector2) (dt : ℚ)
    (hTo : (getObj w i).attachedTo = some j)
    (hPart : (getObj w i).attachedPart = some p) (hp : p ≠ "")
    (hOff : (getObj w i).attachedOffset = some off)
    (hAp : getAttachPoint (getObj w j) p = .ok ap) :
    integrate w i dt =
      (setObj w i
        { getObj w i with
          position := v_add ap off,
          velocity := (getObj w j).velocity }, none) := by
  simp only [integrate, hTo, hPart, if_neg hp, hAp, hOff]

theorem integrate_attached_inv (w : World) (i j : Nat) (p : String)
    (off ap : Vector2) (dt : ℚ)
    (hi : i < w.length) (hij : i ≠ j)
    (hTo : (getObj w i).attachedTo = some j)
    (hPart : (getObj w i).attachedPart = some p) (hp : p ≠ "")
    (hOff : (getObj w i).attachedOffset = some off)
    (hAp : getAttachPoint (getObj w j) p = .ok ap) :
    ∀ n : Nat,
      i < ((fun ω => (integrate ω i dt).1)^[n] w).length ∧
      (getObj ((fun ω => (integrate ω i dt).1)^[n] w) i).attachedTo = some j ∧
      (getObj ((fun ω => (integrate ω i dt).1)^[n] w) i).attachedPart = some p ∧
      (getObj ((fun ω => (integrate ω i dt).1)^[n] w) i).attachedOffset = some off ∧
      getObj ((fun ω => (integrate ω i dt).1)^[n] w) j = getObj w j ∧
      (0 < n →
        v_sub (getObj ((fun ω => (integrate ω i dt).1)^[n] w) i).position ap = off) := by
  intro n
  induction n with
  | zero =>
      rw [Function.iterate_zero_apply]
      exact ⟨hi, hTo, hPart, hOff, rfl, fun h => absurd h (Nat.lt_irrefl 0)⟩
  | succ n ih =>
      obtain ⟨ihLen, ihTo, ihPart, ihOff, ihTgt, _⟩ := ih
      have hstep : integrate ((fun ω => (integrate ω i dt).1)^[n] w) i dt =
          (setObj ((fun ω => (integrate ω i dt).1)^[n] w) i
            { getObj ((fun ω => (integrate ω i dt).1)^[n] w) i with
              position := v_add ap off,
              velocity := (getObj ((fun ω => (integrate ω i dt).1)^[n] w) j).velocity },
           none) :=
        integrate_attached_eq _ i j p off ap dt ihTo ihPart hp ihOff (ihTgt ▸ hAp)
      have hiter : (fun ω => (integrate ω i dt).1)^[n + 1] w =
          (integrate ((fun ω => (integrate ω i dt).1)^[n] w) i dt).1 :=
        Function.iterate_succ_apply' (fun ω => (integrate ω i dt).1) n w
      rw [hiter, hstep]
      have hget := getObj_setObj_self ((fun ω => (integrate ω i dt).1)^[n] w) i
        { getObj ((fun ω => (integrate ω i dt).1)^[n] w) i with
          position := v_add ap off,
          velocity := (getObj ((fun ω => (integrate ω i dt).1)^[n] w) j).velocity }
        ihLen
      refine ⟨?_, ?_, ?_, ?_, ?_, ?_⟩
      · rw [length_setObj]; exact ihLen
      · rw [hget]; exact ihTo
      · rw [hget]; exact ihPart
      · rw [hget]; exact ihOff
      · rw [getObj_setObj_ne _ _ _ _ hij]; exact ihTgt
      · intro _
        rw [hget]
        exact v_sub_v_add_left ap off

/-- Claim C1: attachment rigidity — `attachTo(target, part)` records
`offset = body.position − target.getAttachPoint(part)` at attach time, and
after any number of `integrate(dt)` calls on the attached body (with the
target stationary or moving), `body.position − target.getAttachPoint(part)`
equals exactly that recorded offset, the attachment fields and the target
being untouched by each such call, until detach. -/
theorem C1_attachment_rigidity (w : World) (i j : Nat) (p : String)
    (off ap : Vector2) (dt : ℚ)
    (hi : i < w.length) (hij : i ≠ j)
    (hTo : (getObj w i).attachedTo = some j)
    (hPart : (getObj w i).attachedPart = some p) (hp : p ≠ "")
    (hOff : (getObj w i).attachedOffset = some off)
    (hAp : getAttachPoint (getObj w j) p = .ok ap) :
    (∀ (w0 : World) (i0 j0 : Nat) (p0 : String) (ap0 : Vector2),
      i0 < w0.length → getAttachPoint (getObj w0 j0) p0 = .ok ap0 →
      (getObj (attachTo w0 i0 (some j0) p0).1 i0).attachedOffset =
        some (v_sub (getObj w0 i0).position ap0)) ∧
    (integrate w i dt).2 = none ∧
    v_sub (getObj (integrate w i dt).1 i).position ap = off ∧
    (getObj (integrate w i dt).1 i).attachedTo = some j ∧
    (getObj (integrate w i dt).1 i).attachedPart = some p ∧
    (getObj (integrate w i dt).1 i).attachedOffset = some off ∧
    getObj (integrate w i dt).1 j = getObj w j ∧
    (∀ n : Nat, 0 < n →
      v_sub (getObj ((fun ω => (integrate ω i dt).1)^[n] w) i).position ap = off) := by
  have hstep := integrate_attached_eq w i j p off ap dt hTo hPart hp hOff hAp
  have hget := getObj_setObj_self w i
    { getObj w i with position := v_add ap off, velocity := (getObj w j).velocity } hi
  refine ⟨?_, ?_, ?_, ?_, ?_, ?_, ?_, ?_⟩
  · intro w0 i0 j0 p0 ap0 hi0 hAp0
    simp only [attachTo, hAp0]
    rw [getObj_setObj_self w0 i0 _ hi0]
  · rw [hstep]
  · rw [hstep]
    simp only
    rw [hget]
    exact v_sub_v_add_left ap off
  · rw [hstep]; simp only; rw [hget]; exact hTo
  · rw [hstep]; simp only; rw [hget]; exact hPart
  · rw [hstep]; simp only; rw [hget]; exact hOff
  · rw [hstep]; simp only
    rw [getObj_setObj_ne _ _ _ _ hij]
  · intro n hn
    exact (integrate_attached_inv w i j p off ap dt hi hij
      hTo hPart hp hOff hAp n).2.2.2.2.2 hn

/-- Witness for C1: a concrete ball rigidly attached to a concrete anchor
keeps its recorded `(1, 0)` offset across three `integrate` calls. -/
theorem C1_attachment_rigidity_witness :
    v_sub
      (getObj ((fun ω => (integrate ω 1 (1/10)).1)^[3]
        [{ fixed := true, shape := .anchor },
         { position := (1, 0), fixed := true, shape := .ball (1/5),
           attachedTo := some 0, attachedPart := some "anchor",
           attachedOffset := some (1, 0), previousFixedState := some false }]) 1).position
      (0, 0) = (1, 0) :=
  (C1_attachment_rigidity
    [{ fixed := true, shape := .anchor },
     { position := (1, 0), fixed := true, shape := .ball (1/5),
       attachedTo := some 0, attachedPart := some "anchor",
       attachedOffset := some (1, 0), previousFixedState := some false }]
    1 0 "anchor" (1, 0) (0, 0) (1/10)
    (by decide) (by decide) rfl rfl (by decide) rfl
    rfl).2.2.2.2.2.2.2 3 (by decide)

/-- Claim C2: attached bodies are kinematic for the entire step — any
spring force directed at an attached body leaves its state unchanged
(`applyForce` on an attached body is the identity, so `RodSpring.apply`
leaves an attached endpoint untouched), and after any `integrate(dt)` call
on it, its velocity equals exactly its target's current velocity (a
same-step snapshot copy) and its position equals the target's attach point
plus the recorded offset. -/
theorem C2_attached_kinematic (o : PhysicsObject) (f : Vector2)
    (vlen : Vector2 → ℚ) (s : RodSpring) (w : World)
    (i j : Nat) (p : String) (off ap : Vector2) (dt : ℚ) :
    (o.attachedTo.isSome → applyForce o f dt = o) ∧
    ((getObj w s.a).attachedTo.isSome →
      getObj (RodSpring.apply vlen s w dt) s.a = getObj w s.a) ∧
    ((getObj w s.b).attachedTo.isSome →
      getObj (RodSpring.apply vlen s w dt) s.b = getObj w s.b) ∧
    (i < w.length → (getObj w i).attachedTo = some j →
      (getObj w i).attachedPart = some p → p ≠ "" →
      (getObj w i).attachedOffset = some off →
      getAttachPoint (getObj w j) p = .ok ap →
      (getObj (integrate w i dt).1 i).velocity = (getObj w j).velocity ∧
      (getObj (integrate w i dt).1 i).position = v_add ap off) := by
  refine ⟨?_, ?_, ?_, ?_⟩
  · intro h
    exact applyForce_of_attached o f dt h
  · intro ha
    simp only [RodSpring.apply]
    split
    · rfl
    · rcases eq_or_ne s.a s.b with heq | hne
      · rw [heq] at ha ⊢
        rw [applyForce_of_attached _ _ _ ha, setObj_getObj_self]
        rw [applyForce_of_attached _ _ _ ha, setObj_getObj_self]
      · rw [applyForce_of_attached _ _ _ ha, setObj_getObj_self]
        rw [getObj_setObj_ne _ _ _ _ (Ne.symm hne)]
  · intro hb
    simp only [RodSpring.apply]
    split
    · rfl
    · rcases eq_or_ne s.a s.b with heq | hne
      · rw [heq]
        rw [applyForce_of_attached _ _ _ hb, setObj_getObj_self]
        rw [applyForce_of_attached _ _ _ hb, setObj_getObj_self]
      · have hb' : (getObj (setObj w s.a
            (applyForce (getObj w s.a) (v_scale (v_scale
              ((v_sub (getObj w s.b).position (getObj w s.a).position).1 /
                  vlen (v_sub (getObj w s.b).position (getObj w s.a).position),
                (v_sub (getObj w s.b).position (getObj w s.a).position).2 /
                  vlen (v_sub (getObj w s.b).position (getObj w s.a).position))
              (-s.stiffness * (vlen (v_sub (getObj w s.b).position (getObj w s.a).position)
                  - s.restLength) +
                -s.damping *
                  ((v_sub (getObj w s.b).velocity (getObj w s.a).velocity).1 *
                      ((v_sub (getObj w s.b).position (getObj w s.a).position).1 /
                        vlen (v_sub (getObj w s.b).position (getObj w s.a).position)) +
                    (v_sub (getObj w s.b).velocity (getObj w s.a).velocity).2 *
                      ((v_sub (getObj w s.b).position (getObj w s.a).position).2 /
                        vlen (v_sub (getObj w s.b).position (getObj w s.a).position)))))
              (-1)) dt)) s.b).attachedTo.isSome := by
          rw [getObj_setObj_ne _ _ _ _ hne]
          exact hb
        rw [applyForce_of_attached _ _ _ hb', setObj_getObj_self]
        rw [getObj_setObj_ne _ _ _ _ hne]
  · intro hi hTo hPart hp hOff hAp
    have hstep := integrate_attached_eq w i j p off ap dt hTo hPart hp hOff hAp
    have hget := getObj_setObj_self w i
      { getObj w i with
        position := v_add ap off,
        velocity := (getObj w j).velocity } hi
    rw [hstep]
    simp only
    rw [hget]
    exact ⟨rfl, rfl⟩

/-- Witness for C2: a concrete attached body absorbs a concrete force with
no state change, and a concrete `integrate` call copies the target's
velocity and re-derives the position from attach point plus offset. -/
theorem C2_attached_kinematic_witness :
    applyForce { fixed := true, attachedTo := some 0 } (3, 4) 1 =
      { fixed := true, attachedTo := some 0 } ∧
    (getObj (integrate
      [{ velocity := (1, 2) },
       { position := (5, 0), fixed := true, attachedTo := some 0,
         attachedPart := some "center", attachedOffset := some (5, 0),
         previousFixedState := some false }] 1 (1/4)).1 1).velocity = (1, 2) := by
  constructor
  · exact (C2_attached_kinematic { fixed := true, attachedTo := some 0 } (3, 4)
      (fun _ => 0) { a := 0, b := 0, restLength := 0 } [] 0 0 "" (0, 0) (0, 0) 1).1
      (by decide)
  · have h := (C2_attached_kinematic default (0, 0)
      (fun _ => 0) { a := 0, b := 0, restLength := 0 }
      [{ velocity := (1, 2) },
       { position := (5, 0), fixed := true, attachedTo := some 0,
         attachedPart := some "center", attachedOffset := some (5, 0),
         previousFixedState := some false }]
      1 0 "center" (5, 0) (0, 0) (1/4)).2.2.2
      (by decide) rfl rfl (by decide) rfl rfl
    exact h.1

/- ---------------------------------------------------------------- -/
/- Helper lemmas for the fixed-while-attached invariant.            -/
/- ---------------------------------------------------------------- -/

theorem fixedInv_getObj (w : World) (hw : worldFixedInv w) (i : Nat) :
    fixedInv (getObj w i) := by
  by_cases hi : i < w.length
  · refine hw _ ?_
    rw [getObj, List.getD_eq_getElem w default hi]
    exact List.getElem_mem hi
  · rw [getObj, List.getD_eq_default w default (Nat.le_of_not_lt hi)]
    intro hs
    exact absurd hs (by decide)

theorem worldFixedInv_setObj (w : World) (i : Nat) (o : PhysicsObject)
    (hw : worldFixedInv w) (ho : fixedInv o) : worldFixedInv (setObj w i o) := by
  intro x hx
  rcases List.mem_or_eq_of_mem_set hx with h | h
  · exact hw x h
  · rw [h]; exact ho

theorem fixedInv_applyForce (o : PhysicsObject) (f : Vector2) (dt : ℚ)
    (h : fixedInv o) : fixedInv (applyForce o f dt) := by
  unfold applyForce
  split
  · exact h
  · split
    · exact h
    · exact fun hs => h hs

theorem integrate_cases (w : World) (i : Nat) (dt : ℚ) :
    (integrate w i dt).1 = w ∨
    ∃ o' : PhysicsObject, (integrate w i dt).1 = setObj w i o' ∧
      o'.attachedTo = (getObj w i).attachedTo ∧ o'.fixed = (getObj w i).fixed := by
  simp only [integrate]
  repeat' split
  all_goals first
    | (left; rfl)
    | (right; exact ⟨_, rfl, rfl, rfl⟩)

theorem worldFixedInv_integrate (w : World) (i : Nat) (dt : ℚ)
    (hw : worldFixedInv w) : worldFixedInv (integrate w i dt).1 := by
  rcases integrate_cases w i dt with h | ⟨o', h, hTo, hfix⟩
  · rw [h]; exact hw
  · rw [h]
    refine worldFixedInv_setObj w i o' hw ?_
    intro hs
    rw [hTo] at hs
    rw [hfix]
    exact fixedInv_getObj w hw i hs

theorem worldFixedInv_attachTo (w : World) (i : Nat) (t : Option Nat) (p : String)
    (hw : worldFixedInv w) : worldFixedInv (attachTo w i t p).1 := by
  unfold attachTo
  cases t with
  | none => exact hw
  | some j =>
      cases hg : getAttachPoint (getObj w j) p with
      | error e => simp only [hg]; exact hw
      | ok ap =>
          simp only [hg]
          exact worldFixedInv_setObj _ _ _ hw (fun _ => rfl)

theorem worldFixedInv_detach (w : World) (i : Nat) (hw : worldFixedInv w) :
    worldFixedInv (detach w i) := by
  unfold detach
  cases hTo : (getObj w i).attachedTo with
  | none => simp only [hTo]; exact hw
  | some j =>
      simp only [hTo]
      refine worldFixedInv_setObj _ _ _ hw ?_
      intro hs
      exact absurd hs (by simp)

theorem worldFixedInv_spring (vlen : Vector2 → ℚ) (s : RodSpring) (w : World)
    (dt : ℚ) (hw : worldFixedInv w) :
    worldFixedInv (RodSpring.apply vlen s w dt) := by
  simp only [RodSpring.apply]
  split
  · exact hw
  · apply worldFixedInv_setObj
    · apply worldFixedInv_setObj
      · exact hw
      · exact fixedInv_applyForce _ _ _ (fixedInv_getObj w hw s.a)
    · apply fixedInv_applyForce
      apply fixedInv_getObj
      apply worldFixedInv_setObj
      · exact hw
      · exact fixedInv_applyForce _ _ _ (fixedInv_getObj w hw s.a)

theorem worldFixedInv_foldl (vlen : Vector2 → ℚ) (dt : ℚ) :
    ∀ (cs : List RodSpring) (w : World), worldFixedInv w →
      worldFixedInv (cs.foldl (fun acc c => RodSpring.apply vlen c acc dt) w)
  | [], _, hw => hw
  | c :: cs, w, hw =>
      worldFixedInv_foldl vlen dt cs _ (worldFixedInv_spring vlen c w dt hw)

theorem worldFixedInv_integrateEach (dt : ℚ) :
    ∀ (idxs : List Nat) (w : World), worldFixedInv w →
      worldFixedInv (integrateEach dt w idxs).1
  | [], _, hw => hw
  | i :: rest, w, hw => by
      have hstep := worldFixedInv_integrate w i dt hw
      unfold integrateEach
      cases hI : integrate w i dt with
      | mk w' oe =>
          rw [hI] at hstep
          cases oe with
          | none => exact worldFixedInv_integrateEach dt rest w' hstep
          | some e => exact hstep

theorem worldFixedInv_step (vlen : Vector2 → ℚ) (w : World) (cs : List RodSpring)
    (dt : ℚ) (hw : worldFixedInv w) : worldFixedInv (step vlen w cs dt).1 := by
  unfold step
  exact worldFixedInv_integrateEach dt _ _ (worldFixedInv_foldl vlen dt cs w hw)

/-- Claim C6: fixed-while-attached invariant — immediately after a
successful `attachTo`, the body's attachment is present and `fixed` is
`true`; and the world-wide invariant "every attached body has
`fixed = true`" is preserved by `applyForce`, `integrate`, `attachTo`,
`detach`, `RodSpring.apply` and `step`. -/
theorem C6_fixed_while_attached (w : World) (o : PhysicsObject) (f : Vector2)
    (dt : ℚ) (i : Nat) (t : Option Nat) (p : String) (vlen : Vector2 → ℚ)
    (s : RodSpring) (cs : List RodSpring) :
    (∀ w₁, i < w.length → attachTo w i t p = (w₁, none) →
      (getObj w₁ i).attachedTo.isSome ∧ (getObj w₁ i).fixed = true) ∧
    (fixedInv o → fixedInv (applyForce o f dt)) ∧
    (worldFixedInv w → worldFixedInv (integrate w i dt).1) ∧
    (worldFixedInv w → worldFixedInv (attachTo w i t p).1) ∧
    (worldFixedInv w → worldFixedInv (detach w i)) ∧
    (worldFixedInv w → worldFixedInv (RodSpring.apply vlen s w dt)) ∧
    (worldFixedInv w → worldFixedInv (step vlen w cs dt).1) := by
  refine ⟨?_, fixedInv_applyForce o f dt, worldFixedInv_integrate w i dt,
    worldFixedInv_attachTo w i t p, worldFixedInv_detach w i,
    worldFixedInv_spring vlen s w dt, worldFixedInv_step vlen w cs dt⟩
  intro w₁ hi hsucc
  cases t with
  | none => simp [attachTo] at hsucc
  | some j =>
      cases hg : getAttachPoint (getObj w j) p with
      | error e => simp [attachTo, hg] at hsucc
      | ok ap =>
          simp only [attachTo, hg, Prod.mk.injEq] at hsucc
          rw [← hsucc.1]
          rw [getObj_setObj_self w i _ hi]
          exact ⟨rfl, rfl⟩

/-- Witness for C6: after a full `step` on a concrete world holding one
attached and one free body, every attached body still has `fixed = true`. -/
theorem C6_fixed_while_attached_witness :
    worldFixedInv (step (fun _ => 0)
      [{ velocity := (1, 1) },
       { position := (3, 0), fixed := true, attachedTo := some 0,
         attachedPart := some "center", attachedOffset := some (3, 0) }] [] 1).1 :=
  (C6_fixed_while_attached
    [{ velocity := (1, 1) },
     { position := (3, 0), fixed := true, attachedTo := some 0,
       attachedPart := some "center", attachedOffset := some (3, 0) }]
    default (0, 0) 1 0 none "" (fun _ => 0)
    { a := 0, b := 0, restLength := 0 } []).2.2.2.2.2.2 (by decide)

/-- Claim C9: degenerate distance safety — when a spring's two bodies have
exactly identical positions the distance is `v_len (0,0) = 0`, so
`RodSpring.apply(dt)` takes the `dist == 0` early return: it applies no
force and leaves the whole world (both bodies included) unchanged, the
division by `dist` never being reached. -/
theorem C9_degenerate_distance (vlen : Vector2 → ℚ) (s : RodSpring) (w : World)
    (dt : ℚ)
    (hpos : (getObj w s.b).position = (getObj w s.a).position)
    (hvlen : vlen (0, 0) = 0) :
    RodSpring.apply vlen s w dt = w := by
  have hdelta : v_sub (getObj w s.b).position (getObj w s.a).position = (0, 0) := by
    rw [hpos]
    simp [v_sub]
  simp only [RodSpring.apply, hdelta, hvlen]
  simp

/-- Witness for C9 at two concrete coincident bodies (with a length
function sending only the zero vector to zero). -/
theorem C9_degenerate_distance_witness :
    RodSpring.apply (fun v => if v = (0, 0) then 0 else 1)
      { a := 0, b := 1, restLength := 5 }
      [{ position := (2, 3) }, { position := (2, 3) }] (1/2) =
      [{ position := (2, 3) }, { position := (2, 3) }] :=
  C9_degenerate_distance (fun v => if v = (0, 0) then 0 else 1)
    { a := 0, b := 1, restLength := 5 }
    [{ position := (2, 3) }, { position := (2, 3) }] (1/2) rfl (by decide)

/- ---------------------------------------------------------------- -/
/- Helper lemmas for the spring-equilibrium claim.                  -/
/- ---------------------------------------------------------------- -/

theorem integrate_still (w : World) (i : Nat) (dt : ℚ)
    (hatt : (getObj w i).attachedTo = none) (hfix : (getObj w i).fixed = false)
    (hvel : (getObj w i).velocity = (0, 0)) :
    integrate w i dt = (w, none) := by
  have h1 : (getObj w i).velocity.1 = 0 := by rw [hvel]
  have h2 : (getObj w i).velocity.2 = 0 := by rw [hvel]
  have hX : PhysicsObject.mk
      ((getObj w i).position.1 + (getObj w i).velocity.1 * dt,
        (getObj w i).position.2 + (getObj w i).velocity.2 * dt)
      (getObj w i).velocity (getObj w i).mass (getObj w i).fixed
      (getObj w i).shape (getObj w i).attachedTo (getObj w i).attachedPart
      (getObj w i).attachedOffset (getObj w i).previousFixedState
      = getObj w i := by
    rw [h1, h2]
    simp
  simp only [integrate]
  split
  · rename_i j hj
    rw [hatt] at hj
    cases hj
  · rw [if_neg (by rw [hfix]; simp), hX, setObj_getObj_self]

theorem spring_apply_rest (vlen : Vector2 → ℚ) (s : RodSpring) (w : World) (dt : ℚ)
    (hrest : s.restLength = vlen (v_sub (getObj w s.b).position (getObj w s.a).position))
    (hdamp : s.damping = 0)
    (hva : (getObj w s.a).velocity = (0, 0))
    (hvb : (getObj w s.b).velocity = (0, 0)) :
    RodSpring.apply vlen s w dt = w := by
  simp only [RodSpring.apply]
  split
  · rfl
  · rw [applyForce_zero_force _ _ _ ?ha1 ?ha2, setObj_getObj_self,
        applyForce_zero_force _ _ _ ?hb1 ?hb2, setObj_getObj_self]
    case ha1 => simp [v_scale, v_sub, hrest, hdamp, hva, hvb]
    case ha2 => simp [v_scale, v_sub, hrest, hdamp, hva, hvb]
    case hb1 => simp [v_scale, v_sub, hrest, hdamp, hva, hvb]
    case hb2 => simp [v_scale, v_sub, hrest, hdamp, hva, hvb]

theorem step_equilibrium (vlen : Vector2 → ℚ) (A B : PhysicsObject) (k dt : ℚ)
    (hAfix : A.fixed = false) (hAatt : A.attachedTo = none)
    (hAvel : A.velocity = (0, 0))
    (hBfix : B.fixed = false) (hBatt : B.attachedTo = none)
    (hBvel : B.velocity = (0, 0)) :
    step vlen [A, B] [mkRodSpring vlen [A, B] 0 1 none k 0] dt = ([A, B], none) := by
  have hspring : RodSpring.apply vlen (mkRodSpring vlen [A, B] 0 1 none k 0)
      [A, B] dt = [A, B] :=
    spring_apply_rest vlen _ [A, B] dt rfl rfl hAvel hBvel
  have hrange : List.range ([A, B] : World).length = [0, 1] := rfl
  unfold step
  simp only [List.foldl]
  rw [hspring, hrange]
  simp only [integrateEach, integrate_still [A, B] 0 dt hAatt hAfix hAvel,
    integrate_still [A, B] 1 dt hBatt hBfix hBvel]

/-- Claim C8: spring equilibrium — two free, non-fixed bodies connected by
a spring whose rest length defaults to their initial separation `r0`, with
any stiffness `k` and `damping = 0`, started with zero velocities, keep
exactly the state they started with (separation `r0`, zero velocities)
after any number of `step` calls. -/
theorem C8_spring_equilibrium (vlen : Vector2 → ℚ) (A B : PhysicsObject)
    (k dt : ℚ) (n : Nat)
    (hAfix : A.fixed = false) (hAatt : A.attachedTo = none)
    (hAvel : A.velocity = (0, 0))
    (hBfix : B.fixed = false) (hBatt : B.attachedTo = none)
    (hBvel : B.velocity = (0, 0)) :
    stepN vlen [A, B] [mkRodSpring vlen [A, B] 0 1 none k 0] dt n = ([A, B], none) ∧
    vlen (v_sub
        (getObj (stepN vlen [A, B] [mkRodSpring vlen [A, B] 0 1 none k 0] dt n).1 1).position
        (getObj (stepN vlen [A, B] [mkRodSpring vlen [A, B] 0 1 none k 0] dt n).1 0).position) =
      (mkRodSpring vlen [A, B] 0 1 none k 0).restLength ∧
    (getObj (stepN vlen [A, B] [mkRodSpring vlen [A, B] 0 1 none k 0] dt n).1 0).velocity
      = (0, 0) ∧
    (getObj (stepN vlen [A, B] [mkRodSpring vlen [A, B] 0 1 none k 0] dt n).1 1).velocity
      = (0, 0) := by
  have hmain : ∀ m : Nat,
      stepN vlen [A, B] [mkRodSpring vlen [A, B] 0 1 none k 0] dt m = ([A, B], none) := by
    intro m
    induction m with
    | zero => rfl
    | succ m ih =>
        have h := step_equilibrium vlen A B k dt hAfix hAatt hAvel hBfix hBatt hBvel
        simp only [stepN, h]
        exact ih
  refine ⟨hmain n, ?_, ?_, ?_⟩
  · rw [hmain n]
    rfl
  · rw [hmain n]
    exact hAvel
  · rw [hmain n]
    exact hBvel

/-- Witness for C8: two concrete bodies a unit apart (with a nonzero
length function) are still exactly in place with zero velocities after
three steps. -/
theorem C8_spring_equilibrium_witness :
    stepN (fun _ => 1)
      [{ position := (0, 0) }, { position := (1, 0) }]
      [mkRodSpring (fun _ => 1)
        [{ position := (0, 0) }, { position := (1, 0) }] 0 1 none 5 0]
      (1/10) 3 =
      ([{ position := (0, 0) }, { position := (1, 0) }], none) :=
  (C8_spring_equilibrium (fun _ => 1)
    { position := (0, 0) } { position := (1, 0) } 5 (1/10) 3
    rfl rfl rfl rfl rfl rfl).1

end PhysicsPen
